import Mathlib

/-!
Verification of the ant-colony foraging simulation (`antSim.py`).

Shallow embedding conventions:
* Python floats are modelled as exact rationals (`ℚ`); `x % y` on floats (floor
  modulus, sign of the divisor) is `fmod`.
* `pygame.Rect` stores integers; assigning a float coordinate truncates toward
  zero, modelled by `pytrunc`.  `Rect.collide` is pygame's `colliderect`
  overlap test (strict on edges).
* The transcendental calls of the source (`math.atan2`/`get_angle_to`,
  `math.cos`, `math.sin`) and the random draws (`random.uniform`) are supplied
  as oracle inputs (`Oracle`): every theorem is universally quantified over
  them, so it covers in particular the values the Python library returns.
  Euclidean-distance comparisons `hypot d < r` are embedded as the equivalent
  squared comparison `d² < r²` (both sides are nonnegative).
* `pygame.sprite.Group` iterates in insertion order; groups are lists, and a
  sprite `add` is a list append, `kill` a removal.
-/

/-- `SCREEN_WIDTH = 800` (arena width in pixels). -/
def SCREEN_WIDTH : ℚ := 800

/-- `SCREEN_HEIGHT = 600` (arena height in pixels). -/
def SCREEN_HEIGHT : ℚ := 600

/-- `TOTAL_ANTS = 40`. -/
def TOTAL_ANTS : ℤ := 40

/-- `WORKER_RATIO = 0.8` (fraction of ants spawned as workers). -/
def workerFrac : ℚ := 4 / 5

/-- `ANT_SPEED = 1.5`. -/
def ANT_SPEED : ℚ := 3 / 2

/-- `ANT_TURN_SPEED = 5.0` (degrees per frame). -/
def ANT_TURN_SPEED : ℚ := 5

/-- `FOOD_PILES = 12`. -/
def FOOD_PILES : ℤ := 12

/-- `FOOD_AMOUNT_PER_PILE = 80`. -/
def FOOD_AMOUNT_PER_PILE : ℤ := 80

/-- `PHEROMONE_STRENGTH = 255` (initial strength = lifetime in frames). -/
def PHEROMONE_STRENGTH : ℤ := 255

/-- `PHEROMONE_DROP_RATE = 10` (frames between deposits). -/
def PHEROMONE_DROP_RATE : ℤ := 10

/-- Python's `%` on floats: floor modulus, `x - y * floor (x / y)`.
For `y > 0` the result lies in `[0, y)`. -/
def fmod (x y : ℚ) : ℚ := x - y * (⌊x / y⌋ : ℤ)

/-- Angular distance between two headings measured in degrees: the shorter
of the two arcs joining them on the circle. -/
def angDist (a b : ℚ) : ℚ := min (fmod (a - b) 360) (fmod (b - a) 360)

/-- Conversion of a float coordinate to a `pygame.Rect` integer coordinate:
`int()` truncation toward zero. -/
def pytrunc (q : ℚ) : ℤ := if 0 ≤ q then ⌊q⌋ else -⌊-q⌋

/-- `pygame.Rect`: axis-aligned integer rectangle given by top-left corner
and size. -/
structure Rect where
  x : ℤ
  y : ℤ
  w : ℤ
  h : ℤ
deriving DecidableEq

/-- `Rect.center`: `(x + w // 2, y + h // 2)`. -/
def Rect.center (r : Rect) : ℤ × ℤ := (r.x + r.w / 2, r.y + r.h / 2)

/-- pygame `colliderect`: bounding boxes overlap (strict on edges). -/
def Rect.collide (a b : Rect) : Bool :=
  decide (a.x < b.x + b.w) && decide (b.x < a.x + a.w) &&
  decide (a.y < b.y + b.h) && decide (b.y < a.y + a.h)

/-- `Surface((w, h)).get_rect(center = (cx, cy))`: top-left is the center
minus half the size (integer division). -/
def rectFromCenter (cx cy w h : ℤ) : Rect := ⟨cx - w / 2, cy - h / 2, w, h⟩

/-- The 5×5 sprite rectangle of an ant whose float position is `(x, y)`
(set via `self.rect.center = (self.x, self.y)`). -/
def antRectAt (x y : ℚ) : Rect := rectFromCenter (pytrunc x) (pytrunc y) 5 5

/-- Mutable state of the base `Ant` class: float position, speed, heading in
degrees (`direction`), turn rate. -/
structure AntState where
  x : ℚ
  y : ℚ
  speed : ℚ
  direction : ℚ
  turn_speed : ℚ
deriving DecidableEq

/-- `self.rect.center` of an ant: the float position truncated to integers. -/
def AntState.center (a : AntState) : ℤ × ℤ := (pytrunc a.x, pytrunc a.y)

/-- `self.rect` of an ant. -/
def AntState.rect (a : AntState) : Rect := antRectAt a.x a.y

/-- `Ant.steer`: turn the heading toward `target_angle` by at most `turn`
degrees, via the shorter arc, then renormalize into `[0, 360)`. -/
def steer (current target_angle turn : ℚ) : ℚ :=
  let diff := fmod (target_angle - current + 180) 360 - 180
  let d := if |diff| < turn then target_angle
           else if 0 < diff then current + turn
           else current - turn
  fmod d 360

/-- Result of the screen-boundary phase of `Ant.move`: position and heading
after the per-axis bounce checks. -/
structure BRes where
  x : ℚ
  y : ℚ
  dir : ℚ
deriving DecidableEq

/-- Screen-boundary phase of `Ant.move`, applied to the advanced position
`(x1, y1)`: if `x1 ≤ 0` or `x1 ≥ SCREEN_WIDTH` the heading becomes
`180 - direction` and x reverts to the old value; then independently for y
the heading becomes its negation and y reverts. -/
def boundary (a : AntState) (x1 y1 : ℚ) : BRes :=
  let xd := if x1 ≤ 0 ∨ SCREEN_WIDTH ≤ x1 then (a.x, 180 - a.direction) else (x1, a.direction)
  let yd := if y1 ≤ 0 ∨ SCREEN_HEIGHT ≤ y1 then (a.y, -xd.2) else (y1, xd.2)
  ⟨xd.1, yd.1, yd.2⟩

/-- `pygame.sprite.spritecollide(self, obstacle_group, False)` is nonempty:
the ant rectangle at `(x, y)` overlaps some obstacle. -/
def collidesObstacle (x y : ℚ) (obstacles : List Rect) : Bool :=
  obstacles.any (fun ob => Rect.collide (antRectAt x y) ob)

/-- `Ant.move`: advance by `speed` along the heading (the cosine and sine of
the heading are the oracle inputs `c`, `s`), bounce per-axis off the screen
boundary, then on obstacle overlap revert the whole position and add the
random deflection `deflect` (a `random.uniform(90, 270)` draw) to the
heading. -/
def move (a : AntState) (c s : ℚ) (obstacles : List Rect) (deflect : ℚ) : AntState :=
  let b := boundary a (a.x + c * a.speed) (a.y + s * a.speed)
  if collidesObstacle b.x b.y obstacles then
    { a with direction := b.dir + deflect }
  else
    { a with x := b.x, y := b.y, direction := b.dir }

/-- A pheromone marker: rect center (integers, from the truncated drop
position) and remaining strength. -/
structure Pheromone where
  center : ℤ × ℤ
  strength : ℤ
deriving DecidableEq

/-- One `pheromone_group.update()` pass: every marker's strength is
decremented and the marker is killed when the result is `≤ 0`. -/
def decayTick (field : List Pheromone) : List Pheromone :=
  field.filterMap (fun p =>
    if p.strength - 1 ≤ 0 then none else some { p with strength := p.strength - 1 })

/-- `n` successive `decayTick` passes. -/
def decayIter : ℕ → List Pheromone → List Pheromone
  | 0, field => field
  | n + 1, field => decayIter n (decayTick field)

/-- Squared Euclidean distance from a float position to a rect center
(`math.hypot(cx - x, cy - y) ** 2`). -/
def distSq (pos : ℚ × ℚ) (c : ℤ × ℤ) : ℚ :=
  ((c.1 : ℚ) - pos.1) ^ 2 + ((c.2 : ℚ) - pos.2) ^ 2

/-- The worker's pheromone scan: the first marker in iteration order whose
distance to `pos` is `< radius` (squared comparison). -/
def findNearby (field : List Pheromone) (pos : ℚ × ℚ) (radius : ℚ) : Option Pheromone :=
  field.find? (fun p => decide (distSq pos p.center < radius ^ 2))

/-- A food pile: rect center and remaining amount. -/
structure Food where
  center : ℤ × ℤ
  amount : ℤ
deriving DecidableEq

/-- The 12×12 sprite rectangle of a food pile. -/
def foodRect (f : Food) : Rect := rectFromCenter f.center.1 f.center.2 12 12

/-- `collided_food[0].take_chunk()` on the food population: the pile at the
given index loses one unit and is killed when its amount reaches `≤ 0`. -/
def takeChunkAt : List Food → ℕ → List Food
  | [], _ => []
  | f :: fs, 0 => if f.amount - 1 ≤ 0 then fs else { f with amount := f.amount - 1 } :: fs
  | f :: fs, Nat.succ n => f :: takeChunkAt fs n

/-- Python's `min(iterable, key = ...)`: the first element attaining the
minimal key, via a left fold that replaces the current best only on a
strictly smaller key. -/
def pyMinBy (key : Food → ℚ) : List Food → Option Food
  | [] => none
  | f :: fs => some (fs.foldl (fun best g => if key g < key best then g else best) f)

/-- Target selection of a `SeekingFood` worker at float position `pos`:
first any pheromone within distance 50 (first in iteration order), else the
nearest food pile if within distance 100, else no target. -/
def selectTarget (field : List Pheromone) (foods : List Food) (pos : ℚ × ℚ) : Option (ℤ × ℤ) :=
  match findNearby field pos 50 with
  | some p => some p.center
  | none =>
    match pyMinBy (fun f => distSq pos f.center) foods with
    | some f => if distSq pos f.center < 100 ^ 2 then some f.center else none
    | none => none

/-- Worker behavioural states (`STATE_SEEKING_FOOD`, `STATE_RETURNING_TO_NEST`). -/
inductive WState
  | seeking
  | returning
deriving DecidableEq

/-- A `WorkerAnt`: base ant state, behavioural state, pheromone cooldown
counter, and the (read-only) nest rectangle. -/
structure Worker where
  ant : AntState
  state : WState
  cooldown : ℤ
  nest : Rect
deriving DecidableEq

/-- Oracle inputs of one ant update: the value of
`get_angle_to(rect_center, target)`, of `cos(radians ·)` and
`sin(radians ·)`, the wander draw `random.uniform(-turn_speed, turn_speed)`,
and the obstacle deflection draw `random.uniform(90, 270)`. -/
structure Oracle where
  angTo : ℤ × ℤ → ℤ × ℤ → ℚ
  trigC : ℚ → ℚ
  trigS : ℚ → ℚ
  wander : ℚ
  deflect : ℚ

/-- Movement-decision phase shared by worker states: steer toward the target
when one is set, otherwise add the wander perturbation to the heading. -/
def steerPhase (o : Oracle) (a : AntState) (target : Option (ℤ × ℤ)) : AntState :=
  match target with
  | some t => { a with direction := steer a.direction (o.angTo (AntState.center a) t) a.turn_speed }
  | none => { a with direction := a.direction + o.wander }

/-- The final `self.move(obstacle_group)` call of an update. -/
def movePhase (o : Oracle) (a : AntState) (obstacles : List Rect) : AntState :=
  move a (o.trigC a.direction) (o.trigS a.direction) obstacles o.deflect

/-- `WorkerAnt.drop_pheromone`: when the cooldown is `≤ 0`, append a fresh
marker at the (truncated) current position and reset the cooldown to
`PHEROMONE_DROP_RATE`; otherwise just decrement the cooldown. -/
def drop_pheromone (w : Worker) (field : List Pheromone) : Worker × List Pheromone :=
  if w.cooldown ≤ 0 then
    ({ w with cooldown := PHEROMONE_DROP_RATE },
      field ++ [⟨AntState.center w.ant, PHEROMONE_STRENGTH⟩])
  else
    ({ w with cooldown := w.cooldown - 1 }, field)

/-- The `STATE_SEEKING_FOOD` branch of `WorkerAnt.update`: sense a target,
check food collision (transition to returning and take a chunk from the
first collided pile), then steer/wander and move. -/
def seekTick (o : Oracle) (w : Worker) (foods : List Food) (field : List Pheromone)
    (obstacles : List Rect) : Worker × List Food × List Pheromone :=
  let target := selectTarget field foods (w.ant.x, w.ant.y)
  let colIdx := foods.findIdx? (fun f => Rect.collide (AntState.rect w.ant) (foodRect f))
  let st1 := if colIdx.isSome then WState.returning else WState.seeking
  let foods1 := match colIdx with
                | some i => takeChunkAt foods i
                | none => foods
  ({ w with ant := movePhase o (steerPhase o w.ant target) obstacles, state := st1 },
    foods1, field)

/-- The `STATE_RETURNING_TO_NEST` branch of `WorkerAnt.update`: target the
nest center, drop a pheromone (cooldown permitting), on nest overlap switch
to seeking and add 180° to the heading, then steer toward the (still set)
nest target and move. -/
def returnTick (o : Oracle) (w : Worker) (foods : List Food) (field : List Pheromone)
    (obstacles : List Rect) : Worker × List Food × List Pheromone :=
  let wd := drop_pheromone w field
  let hit := Rect.collide (AntState.rect w.ant) w.nest
  let st1 := if hit then WState.seeking else WState.returning
  let d1 := if hit then w.ant.direction + 180 else w.ant.direction
  let a2 := movePhase o (steerPhase o { w.ant with direction := d1 } (some w.nest.center)) obstacles
  ({ wd.1 with ant := a2, state := st1 }, foods, wd.2)

/-- `WorkerAnt.update`, dispatching on the behavioural state. -/
def updateWorker (o : Oracle) (w : Worker) (foods : List Food) (field : List Pheromone)
    (obstacles : List Rect) : Worker × List Food × List Pheromone :=
  match w.state with
  | WState.seeking => seekTick o w foods field obstacles
  | WState.returning => returnTick o w foods field obstacles

/-- `SoldierAnt.update`: wander, then move. -/
def updateSoldier (o : Oracle) (a : AntState) (obstacles : List Rect) : AntState :=
  movePhase o { a with direction := a.direction + o.wander } obstacles

/-- An ant of either role. -/
inductive AntU
  | worker (w : Worker)
  | soldier (a : AntState)
deriving DecidableEq

/-- `AntU.isWorker`. -/
def AntU.isWorker : AntU → Bool
  | AntU.worker _ => true
  | AntU.soldier _ => false

/-- `AntU.isSoldier`. -/
def AntU.isSoldier : AntU → Bool
  | AntU.worker _ => false
  | AntU.soldier _ => true

/-- The shared mutable populations of one tick: food group and pheromone
group (obstacles are immutable and passed separately). -/
structure SimSt where
  foods : List Food
  field : List Pheromone
deriving DecidableEq

/-- One ant's update inside `ant_group.update(...)`. -/
def updateAnt (o : Oracle) (obstacles : List Rect) (u : AntU) (st : SimSt) : AntU × SimSt :=
  match u with
  | AntU.worker w =>
      let r := updateWorker o w st.foods st.field obstacles
      (AntU.worker r.1, ⟨r.2.1, r.2.2⟩)
  | AntU.soldier a => (AntU.soldier (updateSoldier o a obstacles), st)

/-- `ant_group.update(...)`: update every ant in population order, threading
the shared food and pheromone populations left to right. -/
def runAnts (obstacles : List Rect) : List (Oracle × AntU) → SimSt → List AntU × SimSt
  | [], st => ([], st)
  | ou :: rest, st =>
      let r1 := updateAnt ou.1 obstacles ou.2 st
      let r2 := runAnts obstacles rest r1.2
      (r1.1 :: r2.1, r2.2)

/-- One frame of the game loop's simulation part: update all ants, then run
the pheromone group's decay pass once. -/
def stepSim (obstacles : List Rect) (ants : List (Oracle × AntU)) (st : SimSt) :
    List AntU × SimSt :=
  let r := runAnts obstacles ants st
  (r.1, ⟨r.2.foods, decayTick r.2.field⟩)

/-- The nest rectangle of `main`:
`pygame.Rect(SCREEN_WIDTH // 2 - 20, SCREEN_HEIGHT // 2 - 20, 40, 40)`. -/
def nestMain : Rect := ⟨380, 280, 40, 40⟩

/-- The four obstacles created by `main`. -/
def obstaclesMain : List Rect :=
  [⟨100, 150, 20, 300⟩, ⟨600, 150, 20, 300⟩, ⟨300, 100, 200, 20⟩, ⟨300, 480, 200, 20⟩]

/-- Random draws consumed when spawning one ant: the two
`random.randint(-10, 10)` jitters, the `random.random()` role roll, and the
initial `random.uniform(0, 360)` heading. -/
structure SpawnRnd where
  dx : ℤ
  dy : ℤ
  roll : ℚ
  dir0 : ℚ

/-- `WorkerAnt.__init__`: seeking state, cooldown 0. -/
def mkWorkerAnt (x y dir0 : ℚ) (nest : Rect) : Worker :=
  ⟨⟨x, y, ANT_SPEED, dir0, ANT_TURN_SPEED⟩, WState.seeking, 0, nest⟩

/-- Spawning one ant in `main`: jittered nest-center position, then a worker
when `random.random() < WORKER_RATIO` else a soldier. -/
def mkAntMain (nest : Rect) (frac : ℚ) (r : SpawnRnd) : AntU :=
  let x : ℚ := ((nest.center.1 + r.dx : ℤ) : ℚ)
  let y : ℚ := ((nest.center.2 + r.dy : ℤ) : ℚ)
  if r.roll < frac then AntU.worker (mkWorkerAnt x y r.dir0 nest)
  else AntU.soldier ⟨x, y, ANT_SPEED, r.dir0, ANT_TURN_SPEED⟩

/-- The ant-creation loop of `main` (`for i in range(TOTAL_ANTS)`; an empty
range for a nonpositive count). -/
def initAnts (total : ℤ) (frac : ℚ) (nest : Rect) (rnd : ℕ → SpawnRnd) : List AntU :=
  (List.range total.toNat).map (fun i => mkAntMain nest frac (rnd i))

/-- The food-creation loop of `main`. -/
def initFoods (piles : ℤ) (posr : ℕ → ℤ × ℤ) : List Food :=
  (List.range piles.toNat).map (fun i => ⟨posr i, FOOD_AMOUNT_PER_PILE⟩)

/-- The simulation state constructed by `main` before the game loop. -/
structure Sim where
  ants : List AntU
  foods : List Food
  field : List Pheromone
  obstacles : List Rect
  nest : Rect

/-- Initialization of `main`: unconditionally build every population from
the configuration values, with no validation of any kind. -/
def mainInit (total : ℤ) (frac : ℚ) (piles : ℤ) (rnd : ℕ → SpawnRnd)
    (posr : ℕ → ℤ × ℤ) : Sim :=
  ⟨initAnts total frac nestMain rnd, initFoods piles posr, [], obstaclesMain, nestMain⟩

/-! ### Arithmetic of the floor modulus -/

theorem fmod_nonneg (x : ℚ) : 0 ≤ fmod x 360 := by
  have h := Int.floor_le (x / 360)
  rw [fmod]
  nlinarith

theorem fmod_lt (x : ℚ) : fmod x 360 < 360 := by
  have h := Int.lt_floor_add_one (x / 360)
  rw [fmod]
  nlinarith

theorem fmod_eq_self {x : ℚ} (h0 : 0 ≤ x) (h1 : x < 360) : fmod x 360 = x := by
  have hz : ⌊x / 360⌋ = 0 := by
    rw [Int.floor_eq_zero_iff, Set.mem_Ico]
    constructor
    · exact div_nonneg h0 (by norm_num)
    · rw [div_lt_one (by norm_num)]
      linarith
  rw [fmod, hz]
  push_cast
  ring

theorem fmod_add_mul (x : ℚ) (k : ℤ) : fmod (x + 360 * (k : ℚ)) 360 = fmod x 360 := by
  have h1 : (x + 360 * (k : ℚ)) / 360 = x / 360 + (k : ℚ) := by ring
  rw [fmod, fmod, h1, Int.floor_add_int]
  push_cast
  ring

theorem fmod_congr {x y : ℚ} (k : ℤ) (h : x = y + 360 * (k : ℚ)) :
    fmod x 360 = fmod y 360 := by
  rw [h]
  exact fmod_add_mul y k

theorem fmod_neg_of_ne {x : ℚ} (h : fmod x 360 ≠ 0) : fmod (-x) 360 = 360 - fmod x 360 := by
  have hr : -x = (360 - fmod x 360) + 360 * ((-⌊x / 360⌋ - 1 : ℤ) : ℚ) := by
    rw [fmod]
    push_cast
    ring
  rw [fmod_congr _ hr]
  refine fmod_eq_self ?_ ?_
  · have := fmod_lt x
    linarith
  · have := lt_of_le_of_ne (fmod_nonneg x) (Ne.symm h)
    linarith

theorem fmod_neg_of_eq {x : ℚ} (h : fmod x 360 = 0) : fmod (-x) 360 = 0 := by
  have hx : x = 360 * ((⌊x / 360⌋ : ℤ) : ℚ) := by
    rw [fmod] at h
    linarith
  have hr : -x = 0 + 360 * ((-⌊x / 360⌋ : ℤ) : ℚ) := by
    push_cast
    linarith
  rw [fmod_congr _ hr]
  exact fmod_eq_self le_rfl (by norm_num)

theorem fmod_eq_diff_of_nonneg (u : ℚ) (h : 0 ≤ fmod (u + 180) 360 - 180) :
    fmod u 360 = fmod (u + 180) 360 - 180 := by
  have hrep : u = (fmod (u + 180) 360 - 180) + 360 * ((⌊(u + 180) / 360⌋ : ℤ) : ℚ) := by
    rw [fmod]
    ring
  rw [fmod_congr _ hrep]
  refine fmod_eq_self h ?_
  have := fmod_lt (u + 180)
  linarith

theorem fmod_eq_diff_add_of_neg (u : ℚ) (h : fmod (u + 180) 360 - 180 < 0) :
    fmod u 360 = fmod (u + 180) 360 - 180 + 360 := by
  have hrep : u = (fmod (u + 180) 360 - 180 + 360) + 360 * ((⌊(u + 180) / 360⌋ - 1 : ℤ) : ℚ) := by
    rw [fmod]
    push_cast
    ring
  rw [fmod_congr _ hrep]
  refine fmod_eq_self ?_ ?_
  · have := fmod_nonneg (u + 180)
    linarith
  · linarith

/-! ### Behaviour of `steer` -/

theorem steer_snap {c t m : ℚ} (h : |fmod (t - c + 180) 360 - 180| < m) :
    steer c t m = fmod t 360 := by
  simp only [steer]
  rw [if_pos h]

theorem steer_step_pos {c t m : ℚ} (h : m ≤ |fmod (t - c + 180) 360 - 180|)
    (h2 : 0 < fmod (t - c + 180) 360 - 180) : steer c t m = fmod (c + m) 360 := by
  simp only [steer]
  rw [if_neg (not_lt.mpr h), if_pos h2]

theorem steer_step_neg {c t m : ℚ} (h : m ≤ |fmod (t - c + 180) 360 - 180|)
    (h2 : fmod (t - c + 180) 360 - 180 < 0) : steer c t m = fmod (c - m) 360 := by
  simp only [steer]
  rw [if_neg (not_lt.mpr h), if_neg (not_lt.mpr h2.le)]

theorem steer_nonneg (c t m : ℚ) : 0 ≤ steer c t m := by
  simp only [steer]
  exact fmod_nonneg _

theorem steer_lt (c t m : ℚ) : steer c t m < 360 := by
  simp only [steer]
  exact fmod_lt _

theorem steer_fixed {c m : ℚ} (hm : 0 < m) (h0 : 0 ≤ c) (h1 : c < 360) : steer c c m = c := by
  have h180 : c - c + (180 : ℚ) = 180 := by ring
  have hD : fmod (c - c + 180) 360 - 180 = 0 := by
    rw [h180, fmod_eq_self (by norm_num) (by norm_num)]
    ring
  rw [steer_snap (by rw [hD]; simpa using hm), fmod_eq_self h0 h1]

theorem steer_turn_le {c t m : ℚ} (hm : 0 < m) : angDist (steer c t m) c ≤ m := by
  have hDl : -180 ≤ fmod (t - c + 180) 360 - 180 := by
    have := fmod_nonneg (t - c + 180)
    linarith
  have hDu : fmod (t - c + 180) 360 - 180 < 180 := by
    have := fmod_lt (t - c + 180)
    linarith
  by_cases hsnap : |fmod (t - c + 180) 360 - 180| < m
  · rw [steer_snap hsnap, angDist]
    have e1 : fmod (fmod t 360 - c) 360 = fmod (t - c) 360 :=
      fmod_congr (-⌊t / 360⌋) (by rw [fmod]; push_cast; ring)
    have e2 : fmod (c - fmod t 360) 360 = fmod (c - t) 360 :=
      fmod_congr (⌊t / 360⌋) (by rw [fmod]; ring)
    rw [e1, e2]
    have hct : c - t = -(t - c) := by ring
    by_cases hsign : 0 ≤ fmod (t - c + 180) 360 - 180
    · have hu : fmod (t - c) 360 = fmod (t - c + 180) 360 - 180 :=
        fmod_eq_diff_of_nonneg _ hsign
      by_cases hz : fmod (t - c) 360 = 0
      · rw [hct, fmod_neg_of_eq hz, hz]
        simpa using hm.le
      · rw [hct, fmod_neg_of_ne hz]
        calc min (fmod (t - c) 360) (360 - fmod (t - c) 360)
            ≤ fmod (t - c) 360 := min_le_left _ _
          _ ≤ |fmod (t - c + 180) 360 - 180| := by rw [hu]; exact le_abs_self _
          _ ≤ m := hsnap.le
    · push_neg at hsign
      have hu : fmod (t - c) 360 = fmod (t - c + 180) 360 - 180 + 360 :=
        fmod_eq_diff_add_of_neg _ hsign
      have hz : fmod (t - c) 360 ≠ 0 := by
        rw [hu]
        intro hcontra
        linarith
      rw [hct, fmod_neg_of_ne hz]
      calc min (fmod (t - c) 360) (360 - fmod (t - c) 360)
          ≤ 360 - fmod (t - c) 360 := min_le_right _ _
        _ = -(fmod (t - c + 180) 360 - 180) := by rw [hu]; ring
        _ ≤ |fmod (t - c + 180) 360 - 180| := neg_le_abs _
        _ ≤ m := hsnap.le
  · push_neg at hsnap
    have habs : |fmod (t - c + 180) 360 - 180| ≤ 180 := abs_le.mpr ⟨hDl, hDu.le⟩
    have hm180 : m ≤ 180 := le_trans hsnap habs
    have hmlt : m < 360 := by linarith
    by_cases hpos : 0 < fmod (t - c + 180) 360 - 180
    · rw [steer_step_pos hsnap hpos, angDist]
      have e1 : fmod (fmod (c + m) 360 - c) 360 = fmod m 360 :=
        fmod_congr (-⌊(c + m) / 360⌋) (by rw [fmod]; push_cast; ring)
      rw [e1, fmod_eq_self hm.le hmlt]
      exact min_le_left _ _
    · push_neg at hpos
      have hneg : fmod (t - c + 180) 360 - 180 < 0 := by
        rcases lt_or_eq_of_le hpos with h | h
        · exact h
        · exfalso
          rw [h] at hsnap
          simp at hsnap
          linarith
      rw [steer_step_neg hsnap hneg, angDist]
      have e2 : fmod (c - fmod (c - m) 360) 360 = fmod m 360 :=
        fmod_congr (⌊(c - m) / 360⌋) (by rw [fmod]; ring)
      rw [e2, fmod_eq_self hm.le hmlt]
      exact min_le_right _ _

/-- C4: `steer` computes `diff = ((target - current + 180) mod 360) - 180`,
snaps to the (renormalized) target exactly when `|diff| < maxTurn`, and
otherwise moves `current` by exactly `maxTurn` in the sign direction of
`diff`; consequently the angular distance between the result and `current`
is at most `maxTurn`, the result lies in `[0, 360)`, and for a heading
already in `[0, 360)` steering toward itself is the identity. -/
theorem steer_contract (current target_angle maxTurn : ℚ) (hm : 0 < maxTurn) :
    (|fmod (target_angle - current + 180) 360 - 180| < maxTurn →
      steer current target_angle maxTurn = fmod target_angle 360) ∧
    (maxTurn ≤ |fmod (target_angle - current + 180) 360 - 180| →
      0 < fmod (target_angle - current + 180) 360 - 180 →
      steer current target_angle maxTurn = fmod (current + maxTurn) 360) ∧
    (maxTurn ≤ |fmod (target_angle - current + 180) 360 - 180| →
      fmod (target_angle - current + 180) 360 - 180 < 0 →
      steer current target_angle maxTurn = fmod (current - maxTurn) 360) ∧
    angDist (steer current target_angle maxTurn) current ≤ maxTurn ∧
    (0 ≤ steer current target_angle maxTurn ∧ steer current target_angle maxTurn < 360) ∧
    (0 ≤ current → current < 360 → steer current current maxTurn = current) :=
  ⟨fun h => steer_snap h,
   fun h h2 => steer_step_pos h h2,
   fun h h2 => steer_step_neg h h2,
   steer_turn_le hm,
   ⟨steer_nonneg _ _ _, steer_lt _ _ _⟩,
   fun h0 h1 => steer_fixed hm h0 h1⟩

/-- Witness for C4 at `current = 10`, `target = 20`, `maxTurn = 5`
(a step tick) and at `current = target = 10` (a fixed point). -/
theorem steer_contract_witness :
    angDist (steer 10 20 5) 10 ≤ 5 ∧ steer 10 10 5 = 10 :=
  ⟨(steer_contract 10 20 5 (by norm_num)).2.2.2.1,
   (steer_contract 10 10 5 (by norm_num)).2.2.2.2.2 (by norm_num) (by norm_num)⟩

/-! ### Behaviour of `boundary` and `move` -/

theorem boundary_both (a : AntState) (x1 y1 : ℚ)
    (hx : x1 ≤ 0 ∨ SCREEN_WIDTH ≤ x1) (hy : y1 ≤ 0 ∨ SCREEN_HEIGHT ≤ y1) :
    boundary a x1 y1 = ⟨a.x, a.y, -(180 - a.direction)⟩ := by
  simp only [boundary]
  rw [if_pos hx, if_pos hy]

theorem boundary_x_only (a : AntState) (x1 y1 : ℚ)
    (hx : x1 ≤ 0 ∨ SCREEN_WIDTH ≤ x1) (hy : ¬(y1 ≤ 0 ∨ SCREEN_HEIGHT ≤ y1)) :
    boundary a x1 y1 = ⟨a.x, y1, 180 - a.direction⟩ := by
  simp only [boundary]
  rw [if_pos hx, if_neg hy]

theorem boundary_y_only (a : AntState) (x1 y1 : ℚ)
    (hx : ¬(x1 ≤ 0 ∨ SCREEN_WIDTH ≤ x1)) (hy : y1 ≤ 0 ∨ SCREEN_HEIGHT ≤ y1) :
    boundary a x1 y1 = ⟨x1, a.y, -a.direction⟩ := by
  simp only [boundary]
  rw [if_neg hx, if_pos hy]

theorem boundary_none (a : AntState) (x1 y1 : ℚ)
    (hx : ¬(x1 ≤ 0 ∨ SCREEN_WIDTH ≤ x1)) (hy : ¬(y1 ≤ 0 ∨ SCREEN_HEIGHT ≤ y1)) :
    boundary a x1 y1 = ⟨x1, y1, a.direction⟩ := by
  simp only [boundary]
  rw [if_neg hx, if_neg hy]

theorem move_hit {a : AntState} {c s : ℚ} {obstacles : List Rect} {r : ℚ}
    (h : collidesObstacle (boundary a (a.x + c * a.speed) (a.y + s * a.speed)).x
      (boundary a (a.x + c * a.speed) (a.y + s * a.speed)).y obstacles = true) :
    move a c s obstacles r =
      { a with direction := (boundary a (a.x + c * a.speed) (a.y + s * a.speed)).dir + r } := by
  simp only [move]
  rw [if_pos h]

theorem move_no_hit {a : AntState} {c s : ℚ} {obstacles : List Rect} {r : ℚ}
    (h : collidesObstacle (boundary a (a.x + c * a.speed) (a.y + s * a.speed)).x
      (boundary a (a.x + c * a.speed) (a.y + s * a.speed)).y obstacles = false) :
    move a c s obstacles r =
      { a with x := (boundary a (a.x + c * a.speed) (a.y + s * a.speed)).x,
               y := (boundary a (a.x + c * a.speed) (a.y + s * a.speed)).y,
               direction := (boundary a (a.x + c * a.speed) (a.y + s * a.speed)).dir } := by
  simp only [move]
  rw [if_neg (by simp [h])]

/-- C6: per-axis boundary bounce of `Ant.move` — a violated x axis flips the
heading to `180 - heading` and reverts x only, a violated y axis negates the
heading and reverts y only, an unviolated axis keeps its advanced value, and
both axes can bounce in the same tick (the hypothesis restricts the tick to
the boundary phase, i.e. no obstacle overlap afterwards). -/
theorem boundary_bounce (a : AntState) (c s r : ℚ) (obstacles : List Rect)
    (hob : collidesObstacle (boundary a (a.x + c * a.speed) (a.y + s * a.speed)).x
      (boundary a (a.x + c * a.speed) (a.y + s * a.speed)).y obstacles = false) :
    ((a.x + c * a.speed ≤ 0 ∨ SCREEN_WIDTH ≤ a.x + c * a.speed) →
      ¬(a.y + s * a.speed ≤ 0 ∨ SCREEN_HEIGHT ≤ a.y + s * a.speed) →
      move a c s obstacles r =
        { a with x := a.x, y := a.y + s * a.speed, direction := 180 - a.direction }) ∧
    (¬(a.x + c * a.speed ≤ 0 ∨ SCREEN_WIDTH ≤ a.x + c * a.speed) →
      (a.y + s * a.speed ≤ 0 ∨ SCREEN_HEIGHT ≤ a.y + s * a.speed) →
      move a c s obstacles r =
        { a with x := a.x + c * a.speed, y := a.y, direction := -a.direction }) ∧
    ((a.x + c * a.speed ≤ 0 ∨ SCREEN_WIDTH ≤ a.x + c * a.speed) →
      (a.y + s * a.speed ≤ 0 ∨ SCREEN_HEIGHT ≤ a.y + s * a.speed) →
      move a c s obstacles r =
        { a with x := a.x, y := a.y, direction := -(180 - a.direction) }) ∧
    (¬(a.x + c * a.speed ≤ 0 ∨ SCREEN_WIDTH ≤ a.x + c * a.speed) →
      ¬(a.y + s * a.speed ≤ 0 ∨ SCREEN_HEIGHT ≤ a.y + s * a.speed) →
      move a c s obstacles r =
        { a with x := a.x + c * a.speed, y := a.y + s * a.speed }) := by
  refine ⟨fun hx hy => ?_, fun hx hy => ?_, fun hx hy => ?_, fun hx hy => ?_⟩ <;>
    rw [move_no_hit hob]
  · rw [boundary_x_only a _ _ hx hy]
  · rw [boundary_y_only a _ _ hx hy]
  · rw [boundary_both a _ _ hx hy]
  · rw [boundary_none a _ _ hx hy]

/-- Witness for C6: an ant at `(1, 300)` heading 180-ward off the left edge
bounces in place on the x axis only and its heading becomes `180 - 0`. -/
theorem boundary_bounce_witness :
    move ⟨1, 300, 3 / 2, 0, 5⟩ (-1) 0 [] 0 = ⟨1, 300, 3 / 2, 180, 5⟩ := by
  have h := (boundary_bounce ⟨1, 300, 3 / 2, 0, 5⟩ (-1) 0 0 [] rfl).1
    (by norm_num [SCREEN_WIDTH]) (by norm_num [SCREEN_HEIGHT])
  rw [h]
  norm_num

/-- C7 (amended): on obstacle overlap after the boundary phase, the ant ends
the tick at its full pre-move position and its final heading is the
post-boundary heading plus the `random.uniform(90, 270)` draw; in particular
when no boundary axis was violated in the same tick, the heading delta from
the pre-move heading is exactly that draw and lies in `[90, 270)`. -/
theorem obstacle_collision_response (a : AntState) (c s r : ℚ) (obstacles : List Rect)
    (hr1 : 90 ≤ r) (hr2 : r < 270)
    (hcol : collidesObstacle (boundary a (a.x + c * a.speed) (a.y + s * a.speed)).x
      (boundary a (a.x + c * a.speed) (a.y + s * a.speed)).y obstacles = true) :
    (move a c s obstacles r).x = a.x ∧ (move a c s obstacles r).y = a.y ∧
    (move a c s obstacles r).direction =
      (boundary a (a.x + c * a.speed) (a.y + s * a.speed)).dir + r ∧
    (¬(a.x + c * a.speed ≤ 0 ∨ SCREEN_WIDTH ≤ a.x + c * a.speed) →
      ¬(a.y + s * a.speed ≤ 0 ∨ SCREEN_HEIGHT ≤ a.y + s * a.speed) →
      90 ≤ (move a c s obstacles r).direction - a.direction ∧
        (move a c s obstacles r).direction - a.direction < 270) := by
  rw [move_hit hcol]
  refine ⟨rfl, rfl, rfl, fun hx hy => ?_⟩
  rw [boundary_none a _ _ hx hy]
  dsimp only
  constructor <;> linarith

/-- Witness for C7 (amended): an ant at `(400, 300)` stepping right into an
obstacle with deflection draw 100 stays in place and leaves with heading
delta 100. -/
theorem obstacle_collision_response_witness :
    (move ⟨400, 300, 3 / 2, 0, 5⟩ 1 0 [⟨398, 298, 10, 10⟩] 100).x = 400 ∧
    (move ⟨400, 300, 3 / 2, 0, 5⟩ 1 0 [⟨398, 298, 10, 10⟩] 100).y = 300 ∧
    90 ≤ (move ⟨400, 300, 3 / 2, 0, 5⟩ 1 0 [⟨398, 298, 10, 10⟩] 100).direction - 0 ∧
    (move ⟨400, 300, 3 / 2, 0, 5⟩ 1 0 [⟨398, 298, 10, 10⟩] 100).direction - 0 < 270 := by
  have h := obstacle_collision_response ⟨400, 300, 3 / 2, 0, 5⟩ 1 0 100 [⟨398, 298, 10, 10⟩]
    (by norm_num) (by norm_num)
    (by norm_num [boundary, collidesObstacle, antRectAt, rectFromCenter, pytrunc,
      Rect.collide, SCREEN_WIDTH, SCREEN_HEIGHT])
  have h4 := h.2.2.2 (by norm_num [SCREEN_WIDTH]) (by norm_num [SCREEN_HEIGHT])
  exact ⟨h.1, h.2.1, h4.1, h4.2⟩

/-- Counterexample to C7 as stated: when a boundary bounce and an obstacle
overlap happen in the same tick, the heading delta from the pre-move heading
is the boundary reflection plus the draw, not a value in `[90, 270)`.  Here
the ant at `(1, 300)` heading 180-ward bounces off the left edge (heading
becomes 180) and its reverted position overlaps an obstacle, so with draw
180 (inside `[90, 270)`) the final heading is 360: the delta 360 from the
pre-move heading 0 is not in `[90, 270)` (even taken mod 360 it is 0). -/
theorem obstacle_delta_after_boundary_cex :
    move ⟨1, 300, 3 / 2, 0, 5⟩ (-1) 0 [⟨0, 290, 20, 20⟩] 180 = ⟨1, 300, 3 / 2, 360, 5⟩ ∧
    (90 ≤ (180 : ℚ) ∧ (180 : ℚ) < 270) ∧
    ¬((360 : ℚ) - 0 < 270) ∧ fmod (360 - 0) 360 = 0 ∧ ¬(90 ≤ (0 : ℚ)) := by
  refine ⟨?_, by norm_num, by norm_num, by norm_num [fmod], by norm_num⟩
  norm_num [move, boundary, collidesObstacle, antRectAt, rectFromCenter, pytrunc,
    Rect.collide, SCREEN_WIDTH, SCREEN_HEIGHT]

theorem move_keeps_direction (a : AntState) (c s r : ℚ) (obstacles : List Rect)
    (hx : ¬(a.x + c * a.speed ≤ 0 ∨ SCREEN_WIDTH ≤ a.x + c * a.speed))
    (hy : ¬(a.y + s * a.speed ≤ 0 ∨ SCREEN_HEIGHT ≤ a.y + s * a.speed))
    (hob : collidesObstacle (a.x + c * a.speed) (a.y + s * a.speed) obstacles = false) :
    (move a c s obstacles r).direction = a.direction := by
  have hob2 : collidesObstacle (boundary a (a.x + c * a.speed) (a.y + s * a.speed)).x
      (boundary a (a.x + c * a.speed) (a.y + s * a.speed)).y obstacles = false := by
    rw [boundary_none a _ _ hx hy]
    exact hob
  rw [move_no_hit hob2, boundary_none a _ _ hx hy]

/-- C1 (amended): the heading lies in `[0, 360)` at the end of any tick in
which the steering phase applied `steer` (a target was set) and the
subsequent `move` hit neither a screen boundary nor an obstacle: only
`steer` renormalizes the heading; the wander perturbation, the boundary
reflections and the obstacle deflection do not. -/
theorem heading_normalized_when_steered (a : AntState) (ang c s r : ℚ) (obstacles : List Rect)
    (hx : ¬(a.x + c * a.speed ≤ 0 ∨ SCREEN_WIDTH ≤ a.x + c * a.speed))
    (hy : ¬(a.y + s * a.speed ≤ 0 ∨ SCREEN_HEIGHT ≤ a.y + s * a.speed))
    (hob : collidesObstacle (a.x + c * a.speed) (a.y + s * a.speed) obstacles = false) :
    0 ≤ (move { a with direction := steer a.direction ang a.turn_speed } c s obstacles r).direction ∧
      (move { a with direction := steer a.direction ang a.turn_speed } c s obstacles r).direction < 360 := by
  have h := move_keeps_direction { a with direction := steer a.direction ang a.turn_speed }
    c s r obstacles hx hy hob
  rw [h]
  exact ⟨steer_nonneg _ _ _, steer_lt _ _ _⟩

/-- Witness for C1 (amended) at a concrete unobstructed steering tick. -/
theorem heading_normalized_when_steered_witness :
    0 ≤ (move { (⟨400, 300, 3 / 2, 90, 5⟩ : AntState) with
        direction := steer 90 0 5 } 1 0 [] 0).direction ∧
      (move { (⟨400, 300, 3 / 2, 90, 5⟩ : AntState) with
        direction := steer 90 0 5 } 1 0 [] 0).direction < 360 :=
  heading_normalized_when_steered ⟨400, 300, 3 / 2, 90, 5⟩ 0 1 0 0 []
    (by norm_num [SCREEN_WIDTH]) (by norm_num [SCREEN_HEIGHT]) rfl

/-- Counterexample to C1 as stated: a soldier spawned at the nest center
with initial heading 358 (legal, `random.uniform(0, 360)`) that draws the
wander perturbation 4 (legal, `|4| ≤ ANT_TURN_SPEED`) finishes its per-tick
update with heading 362 ∉ `[0, 360)`: `SoldierAnt.update` never
renormalizes.  (The trig oracle values `(1, 0)` stand for
`cos/sin(radians 362)`; the final heading is 362 for any oracle values in
`[-1, 1]`, since at `(400, 300)` no boundary or obstacle can be hit in one
step.) -/
theorem soldier_heading_escapes_range_cex :
    (updateSoldier ⟨fun _ _ => 0, fun _ => 1, fun _ => 0, 4, 0⟩
        ⟨400, 300, 3 / 2, 358, 5⟩ obstaclesMain).direction = 362 ∧
    ¬((updateSoldier ⟨fun _ _ => 0, fun _ => 1, fun _ => 0, 4, 0⟩
        ⟨400, 300, 3 / 2, 358, 5⟩ obstaclesMain).direction < 360) ∧
    |(4 : ℚ)| ≤ ANT_TURN_SPEED := by
  refine ⟨?_, ?_, by norm_num [ANT_TURN_SPEED]⟩ <;>
    norm_num [updateSoldier, movePhase, move, boundary, collidesObstacle, antRectAt,
      rectFromCenter, pytrunc, Rect.collide, obstaclesMain, SCREEN_WIDTH, SCREEN_HEIGHT]

/-! ### Pheromone decay -/

theorem decayIter_succ_eq (n : ℕ) (field : List Pheromone) :
    decayIter (n + 1) field = field.filterMap (fun p =>
      if p.strength - (n : ℤ) - 1 ≤ 0 then none
      else some { p with strength := p.strength - (n : ℤ) - 1 }) := by
  induction n generalizing field with
  | zero =>
    show decayTick field = _
    rw [decayTick]
    congr 1
    funext p
    norm_num
  | succ n ih =>
    show decayIter (n + 1) (decayTick field) = _
    rw [ih (decayTick field), decayTick, List.filterMap_filterMap]
    congr 1
    funext p
    by_cases hs : p.strength - 1 ≤ 0
    · rw [if_pos hs]
      push_cast
      rw [if_pos (show p.strength - ((n : ℤ) + 1) - 1 ≤ 0 by omega)]
      rfl
    · rw [if_neg hs, Option.some_bind]
      dsimp only
      push_cast
      by_cases h2 : p.strength - 1 - (n : ℤ) - 1 ≤ 0
      · rw [if_pos h2, if_pos (show p.strength - ((n : ℤ) + 1) - 1 ≤ 0 by omega)]
      · rw [if_neg h2, if_neg (show ¬(p.strength - ((n : ℤ) + 1) - 1 ≤ 0) by omega)]
        congr 2
        ring

/-- C8: every marker created by a deposit starts with strength
`PHEROMONE_STRENGTH = 255`; a freshly deposited marker is still present
after 254 decay passes (with strength 1) and absent after exactly 255; and
the worker's pheromone scan never returns a marker whose strength has
reached 0 — indeed every marker surviving a decay pass has positive
strength, so the field never contains one. -/
theorem pheromone_lifecycle :
    PHEROMONE_STRENGTH = 255 ∧
    (∀ (w : Worker) (field : List Pheromone), w.cooldown ≤ 0 →
      (drop_pheromone w field).2 = field ++ [⟨AntState.center w.ant, 255⟩]) ∧
    (∀ (field : List Pheromone) (cpos : ℤ × ℤ),
      decayIter 255 (field ++ [⟨cpos, PHEROMONE_STRENGTH⟩]) = decayIter 255 field ∧
      decayIter 254 (field ++ [⟨cpos, PHEROMONE_STRENGTH⟩]) =
        decayIter 254 field ++ [⟨cpos, 1⟩]) ∧
    (∀ (field : List Pheromone) (pos : ℚ × ℚ) (radius : ℚ) (p : Pheromone),
      (∀ q ∈ field, 0 < q.strength) → findNearby field pos radius = some p →
      0 < p.strength) ∧
    (∀ (field : List Pheromone) (p : Pheromone), p ∈ decayTick field → 0 < p.strength) := by
  refine ⟨rfl, ?_, ?_, ?_, ?_⟩
  · intro w field hcd
    rw [drop_pheromone, if_pos hcd]
    rfl
  · intro field cpos
    constructor
    · show decayIter (254 + 1) _ = decayIter (254 + 1) _
      rw [decayIter_succ_eq, decayIter_succ_eq, List.filterMap_append]
      norm_num [PHEROMONE_STRENGTH, List.filterMap_cons, List.filterMap_nil]
    · show decayIter (253 + 1) _ = decayIter (253 + 1) _ ++ _
      rw [decayIter_succ_eq, decayIter_succ_eq, List.filterMap_append]
      norm_num [PHEROMONE_STRENGTH, List.filterMap_cons, List.filterMap_nil]
  · intro field pos radius p hpos hfind
    exact hpos p (List.mem_of_find?_eq_some hfind)
  · intro field p hp
    rw [decayTick] at hp
    obtain ⟨q, hq, hfq⟩ := List.mem_filterMap.mp hp
    by_cases hs : q.strength - 1 ≤ 0
    · rw [if_pos hs] at hfq
      exact absurd hfq (by simp)
    · rw [if_neg hs] at hfq
      obtain rfl := Option.some_injective _ hfq
      dsimp only
      omega

/-- Witness for C8: a worker with cooldown 0 at `(10, 10)` deposits a
strength-255 marker into the empty field, and that marker survives 254
decay passes but not 255. -/
theorem pheromone_lifecycle_witness :
    (drop_pheromone (mkWorkerAnt 10 10 0 nestMain) []).2 = [⟨(10, 10), 255⟩] ∧
    decayIter 255 ([] ++ [⟨(10, 10), PHEROMONE_STRENGTH⟩]) = decayIter 255 [] ∧
    decayIter 254 ([] ++ [⟨(10, 10), PHEROMONE_STRENGTH⟩]) = decayIter 254 [] ++ [⟨(10, 10), 1⟩] := by
  refine ⟨?_, (pheromone_lifecycle.2.2.1 [] (10, 10)).1, (pheromone_lifecycle.2.2.1 [] (10, 10)).2⟩
  have h := pheromone_lifecycle.2.1 (mkWorkerAnt 10 10 0 nestMain) [] (by norm_num [mkWorkerAnt])
  rw [h]
  norm_num [mkWorkerAnt, AntState.center, pytrunc]

/-! ### Worker cooldown behaviour -/

theorem drop_pheromone_le {w : Worker} {field : List Pheromone} (h : w.cooldown ≤ 0) :
    drop_pheromone w field = ({ w with cooldown := PHEROMONE_DROP_RATE },
      field ++ [⟨AntState.center w.ant, PHEROMONE_STRENGTH⟩]) := by
  rw [drop_pheromone, if_pos h]

theorem drop_pheromone_pos {w : Worker} {field : List Pheromone} (h : 0 < w.cooldown) :
    drop_pheromone w field = ({ w with cooldown := w.cooldown - 1 }, field) := by
  rw [drop_pheromone, if_neg (by omega)]

theorem seekTick_cooldown (o : Oracle) (w : Worker) (foods : List Food)
    (field : List Pheromone) (obstacles : List Rect) :
    (seekTick o w foods field obstacles).1.cooldown = w.cooldown := rfl

theorem seekTick_field (o : Oracle) (w : Worker) (foods : List Food)
    (field : List Pheromone) (obstacles : List Rect) :
    (seekTick o w foods field obstacles).2.2 = field := rfl

theorem returnTick_cooldown (o : Oracle) (w : Worker) (foods : List Food)
    (field : List Pheromone) (obstacles : List Rect) :
    (returnTick o w foods field obstacles).1.cooldown = (drop_pheromone w field).1.cooldown := rfl

theorem returnTick_field (o : Oracle) (w : Worker) (foods : List Food)
    (field : List Pheromone) (obstacles : List Rect) :
    (returnTick o w foods field obstacles).2.2 = (drop_pheromone w field).2 := rfl

/-- C10: the pheromone cooldown starts at 0, stays in
`[0, PHEROMONE_DROP_RATE]` across every worker update, is untouched (and no
marker is deposited) by `SeekingFood` ticks, and during `ReturningToNest`
ticks is reset to `PHEROMONE_DROP_RATE` exactly when a marker is deposited
(`cooldown ≤ 0`) and decremented by 1 otherwise. -/
theorem cooldown_invariant (o : Oracle) (w : Worker) (foods : List Food)
    (field : List Pheromone) (obstacles : List Rect) :
    (∀ (x y d0 : ℚ) (nest : Rect), (mkWorkerAnt x y d0 nest).cooldown = 0) ∧
    (0 ≤ w.cooldown → w.cooldown ≤ PHEROMONE_DROP_RATE →
      0 ≤ (updateWorker o w foods field obstacles).1.cooldown ∧
      (updateWorker o w foods field obstacles).1.cooldown ≤ PHEROMONE_DROP_RATE) ∧
    (w.state = WState.seeking →
      (updateWorker o w foods field obstacles).1.cooldown = w.cooldown ∧
      (updateWorker o w foods field obstacles).2.2 = field) ∧
    (w.state = WState.returning → w.cooldown ≤ 0 →
      (updateWorker o w foods field obstacles).1.cooldown = PHEROMONE_DROP_RATE ∧
      (updateWorker o w foods field obstacles).2.2 =
        field ++ [⟨AntState.center w.ant, PHEROMONE_STRENGTH⟩]) ∧
    (w.state = WState.returning → 0 < w.cooldown →
      (updateWorker o w foods field obstacles).1.cooldown = w.cooldown - 1 ∧
      (updateWorker o w foods field obstacles).2.2 = field) := by
  have hPD : PHEROMONE_DROP_RATE = (10 : ℤ) := rfl
  refine ⟨fun x y d0 nest => rfl, ?_, ?_, ?_, ?_⟩
  · intro h0 h1
    cases hst : w.state with
    | seeking =>
      simp only [updateWorker, hst]
      rw [seekTick_cooldown]
      exact ⟨h0, h1⟩
    | returning =>
      simp only [updateWorker, hst]
      rw [returnTick_cooldown]
      by_cases hcd : w.cooldown ≤ 0
      · rw [drop_pheromone_le hcd]
        dsimp only
        rw [hPD]
        norm_num
      · push_neg at hcd
        rw [drop_pheromone_pos hcd]
        dsimp only
        rw [hPD] at h1 ⊢
        omega
  · intro hst
    simp only [updateWorker, hst]
    exact ⟨rfl, rfl⟩
  · intro hst hcd
    simp only [updateWorker, hst]
    rw [returnTick_cooldown, returnTick_field, drop_pheromone_le hcd]
    exact ⟨rfl, rfl⟩
  · intro hst hcd
    simp only [updateWorker, hst]
    rw [returnTick_cooldown, returnTick_field, drop_pheromone_pos hcd]
    exact ⟨rfl, rfl⟩

/-- Witness for C10: a returning worker with cooldown 0 deposits a marker
and leaves the tick with cooldown `PHEROMONE_DROP_RATE`. -/
theorem cooldown_invariant_witness :
    (updateWorker ⟨fun _ _ => 0, fun _ => 0, fun _ => 0, 0, 0⟩
        ⟨⟨10, 10, 3 / 2, 0, 5⟩, WState.returning, 0, nestMain⟩ [] [] []).1.cooldown =
      PHEROMONE_DROP_RATE ∧
    (updateWorker ⟨fun _ _ => 0, fun _ => 0, fun _ => 0, 0, 0⟩
        ⟨⟨10, 10, 3 / 2, 0, 5⟩, WState.returning, 0, nestMain⟩ [] [] []).2.2 =
      [] ++ [⟨AntState.center ⟨10, 10, 3 / 2, 0, 5⟩, PHEROMONE_STRENGTH⟩] :=
  (cooldown_invariant _ _ _ _ _).2.2.2.1 rfl (by norm_num)

/-! ### First-found and minimum lemmas for sensing -/

theorem find?_first {α : Type} (p : α → Bool) (l1 l2 : List α) (a : α)
    (h1 : ∀ x ∈ l1, ¬ p x) (h2 : p a = true) :
    (l1 ++ a :: l2).find? p = some a := by
  induction l1 with
  | nil => simpa using List.find?_cons_of_pos l2 h2
  | cons b bs ih =>
    rw [List.cons_append, List.find?_cons_of_neg _ (h1 b (List.mem_cons_self b bs))]
    exact ih fun x hx => h1 x (List.mem_cons_of_mem b hx)

theorem pyFold_spec (key : Food → ℚ) (l : List Food) (a : Food) :
    (List.foldl (fun best g => if key g < key best then g else best) a l = a ∨
      List.foldl (fun best g => if key g < key best then g else best) a l ∈ l) ∧
    key (List.foldl (fun best g => if key g < key best then g else best) a l) ≤ key a ∧
    ∀ g ∈ l, key (List.foldl (fun best g => if key g < key best then g else best) a l) ≤ key g := by
  induction l generalizing a with
  | nil =>
    refine ⟨Or.inl rfl, le_refl _, ?_⟩
    intro g hg
    simp at hg
  | cons b bs ih =>
    rw [List.foldl_cons]
    obtain ⟨hmem, hle, hall⟩ := ih (if key b < key a then b else a)
    have hle2 : key (if key b < key a then b else a) ≤ key a := by
      by_cases hb : key b < key a
      · rw [if_pos hb]; exact hb.le
      · rw [if_neg hb]
    have hle3 : key (if key b < key a then b else a) ≤ key b := by
      by_cases hb : key b < key a
      · rw [if_pos hb]
      · rw [if_neg hb]; exact not_lt.mp hb
    refine ⟨?_, le_trans hle hle2, ?_⟩
    · rcases hmem with h | h
      · by_cases hb : key b < key a
        · rw [if_pos hb] at h ⊢
          right
          rw [h]
          exact List.mem_cons_self b bs
        · rw [if_neg hb] at h ⊢
          exact Or.inl h
      · exact Or.inr (List.mem_cons_of_mem b h)
    · intro q hq
      rcases List.mem_cons.mp hq with h | h
      · rw [h]
        exact le_trans hle hle3
      · exact hall q h

theorem pyMinBy_spec (key : Food → ℚ) (f : Food) (fs : List Food) :
    ∃ g, pyMinBy key (f :: fs) = some g ∧ g ∈ f :: fs ∧ ∀ q ∈ f :: fs, key g ≤ key q := by
  obtain ⟨hmem, hle, hall⟩ := pyFold_spec key fs f
  refine ⟨_, rfl, ?_, ?_⟩
  · rcases hmem with h | h
    · rw [h]
      exact List.mem_cons_self f fs
    · exact List.mem_cons_of_mem f h
  · intro q hq
    rcases List.mem_cons.mp hq with h | h
    · exact h ▸ hle
    · exact hall q h

/-- C5: each seeking tick, a pheromone within distance 50 — the first one in
iteration order, regardless of the food population — becomes the target;
otherwise, for a non-empty food population, the minimum-distance entry
becomes the target exactly when it lies within distance 100; otherwise the
worker has no target (squared-distance comparisons; `50² = 2500`,
`100² = 10000`). -/
theorem seeking_target_selection (field : List Pheromone) (foods : List Food) (pos : ℚ × ℚ) :
    (∀ (l1 l2 : List Pheromone) (p : Pheromone), field = l1 ++ p :: l2 →
      distSq pos p.center < 50 ^ 2 → (∀ q ∈ l1, ¬(distSq pos q.center < 50 ^ 2)) →
      selectTarget field foods pos = some p.center) ∧
    ((∀ p ∈ field, ¬(distSq pos p.center < 50 ^ 2)) → foods ≠ [] →
      ∃ f ∈ foods, (∀ g ∈ foods, distSq pos f.center ≤ distSq pos g.center) ∧
        (distSq pos f.center < 100 ^ 2 → selectTarget field foods pos = some f.center) ∧
        (¬(distSq pos f.center < 100 ^ 2) → selectTarget field foods pos = none)) ∧
    ((∀ p ∈ field, ¬(distSq pos p.center < 50 ^ 2)) → foods = [] →
      selectTarget field foods pos = none) := by
  refine ⟨?_, ?_, ?_⟩
  · intro l1 l2 p heq hp hl1
    have hfind : findNearby field pos 50 = some p := by
      rw [findNearby, heq]
      refine find?_first _ l1 l2 p ?_ ?_
      · intro x hx
        simpa using hl1 x hx
      · simpa using hp
    rw [selectTarget, hfind]
  · intro hnop hne
    have hfind : findNearby field pos 50 = none := by
      rw [findNearby, List.find?_eq_none]
      intro x hx
      simpa using hnop x hx
    cases foods with
    | nil => exact absurd rfl hne
    | cons f fs =>
      obtain ⟨g, hpg, hgmem, hgmin⟩ := pyMinBy_spec (fun q => distSq pos q.center) f fs
      refine ⟨g, hgmem, hgmin, ?_, ?_⟩
      · intro hclose
        rw [selectTarget, hfind, hpg]
        show (if distSq pos g.center < 100 ^ 2 then some g.center else none) = some g.center
        rw [if_pos hclose]
      · intro hfar
        rw [selectTarget, hfind, hpg]
        show (if distSq pos g.center < 100 ^ 2 then some g.center else none) = none
        rw [if_neg hfar]
  · intro hnop hnil
    subst hnil
    have hfind : findNearby field pos 50 = none := by
      rw [findNearby, List.find?_eq_none]
      intro x hx
      simpa using hnop x hx
    rw [selectTarget, hfind]
    rfl

/-- Witness for C5: the worker at the origin targets the second pheromone
(the first one within 50) even though a food pile is much closer. -/
theorem seeking_target_selection_witness :
    selectTarget [⟨(100, 0), 255⟩, ⟨(10, 0), 255⟩] [⟨(0, 1), 80⟩] (0, 0) = some (10, 0) := by
  have h := (seeking_target_selection [⟨(100, 0), 255⟩, ⟨(10, 0), 255⟩] [⟨(0, 1), 80⟩] (0, 0)).1
    [⟨(100, 0), 255⟩] [] ⟨(10, 0), 255⟩ rfl (by norm_num [distSq])
    (by
      intro q hq
      simp only [List.mem_singleton] at hq
      subst hq
      norm_num [distSq])
  exact h

/-! ### Nest arrival -/

theorem returnTick_state (o : Oracle) (w : Worker) (foods : List Food)
    (field : List Pheromone) (obstacles : List Rect) :
    (returnTick o w foods field obstacles).1.state =
      (if Rect.collide (AntState.rect w.ant) w.nest then WState.seeking
       else WState.returning) := rfl

theorem returnTick_ant (o : Oracle) (w : Worker) (foods : List Food)
    (field : List Pheromone) (obstacles : List Rect) :
    (returnTick o w foods field obstacles).1.ant =
      movePhase o (steerPhase o { w.ant with direction :=
        (if Rect.collide (AntState.rect w.ant) w.nest then w.ant.direction + 180
         else w.ant.direction) } (some w.nest.center)) obstacles := rfl

/-- C2 (amended): a returning worker whose rectangle overlaps the nest
switches to `SeekingFood` in that same tick and 180° is added to its heading
at the transition point; however the tick then still steers the ant toward
the (still set) nest-center target and moves it, so the heading at the end
of the tick is the moved-and-steered value of `heading + 180`, not
`heading + 180` itself. -/
theorem nest_arrival_transition (o : Oracle) (w : Worker) (foods : List Food)
    (field : List Pheromone) (obstacles : List Rect)
    (hst : w.state = WState.returning)
    (hhit : Rect.collide (AntState.rect w.ant) w.nest = true) :
    (updateWorker o w foods field obstacles).1.state = WState.seeking ∧
    (updateWorker o w foods field obstacles).1.ant =
      movePhase o (steerPhase o { w.ant with direction := w.ant.direction + 180 }
        (some w.nest.center)) obstacles := by
  constructor
  · simp only [updateWorker, hst]
    rw [returnTick_state, if_pos hhit]
  · simp only [updateWorker, hst]
    rw [returnTick_ant, if_pos hhit]

/-- Witness for C2 (amended): a returning worker sitting on the nest center
transitions to seeking, and its end-of-tick ant state is the steer-and-move
image of the reversed heading. -/
theorem nest_arrival_transition_witness :
    (updateWorker ⟨fun _ _ => 0, fun _ => 0, fun _ => 0, 0, 0⟩
        ⟨⟨400, 300, 3 / 2, 90, 5⟩, WState.returning, 5, nestMain⟩ [] [] obstaclesMain).1.state =
      WState.seeking ∧
    (updateWorker ⟨fun _ _ => 0, fun _ => 0, fun _ => 0, 0, 0⟩
        ⟨⟨400, 300, 3 / 2, 90, 5⟩, WState.returning, 5, nestMain⟩ [] [] obstaclesMain).1.ant =
      movePhase ⟨fun _ _ => 0, fun _ => 0, fun _ => 0, 0, 0⟩
        (steerPhase ⟨fun _ _ => 0, fun _ => 0, fun _ => 0, 0, 0⟩
          ⟨400, 300, 3 / 2, 90 + 180, 5⟩ (some nestMain.center)) obstaclesMain :=
  nest_arrival_transition _ _ [] [] obstaclesMain rfl
    (by norm_num [AntState.rect, antRectAt, rectFromCenter, pytrunc, Rect.collide, nestMain])

/-- Counterexample to C2 as stated: the worker at the nest center with
pre-transition heading 90 ends the tick with heading 275, not
`(90 + 180) mod 360 = 270` — after the transition adds 180°, the same tick
steers the heading by a further 5° toward the nest-center target (the
`get_angle_to` oracle value 0 is exact here: `atan2(0, 0) = 0`; the trig
oracle values `(1, 0)` are inessential, since from `(400, 300)` one step
hits no boundary and no obstacle of the main layout for any values in
`[-1, 1]`). -/
theorem nest_arrival_heading_cex :
    (updateWorker ⟨fun _ _ => 0, fun _ => 1, fun _ => 0, 0, 0⟩
        ⟨⟨400, 300, 3 / 2, 90, 5⟩, WState.returning, 5, nestMain⟩ [] [] obstaclesMain).1.state =
      WState.seeking ∧
    (updateWorker ⟨fun _ _ => 0, fun _ => 1, fun _ => 0, 0, 0⟩
        ⟨⟨400, 300, 3 / 2, 90, 5⟩, WState.returning, 5, nestMain⟩ [] [] obstaclesMain).1.ant.direction =
      275 ∧
    fmod (90 + 180) 360 = 270 ∧ (275 : ℚ) ≠ 270 := by
  refine ⟨?_, ?_, by norm_num [fmod], by norm_num⟩ <;>
    norm_num [updateWorker, returnTick, drop_pheromone, steerPhase, movePhase, move,
      boundary, collidesObstacle, antRectAt, rectFromCenter, pytrunc, Rect.collide,
      AntState.rect, AntState.center, steer, fmod, nestMain, Rect.center, obstaclesMain,
      SCREEN_WIDTH, SCREEN_HEIGHT]

/-! ### Tick sequencing -/

theorem updateWorker_field (o : Oracle) (w : Worker) (foods : List Food)
    (field : List Pheromone) (obstacles : List Rect) :
    (updateWorker o w foods field obstacles).2.2 = field ∨
    (updateWorker o w foods field obstacles).2.2 =
      field ++ [⟨AntState.center w.ant, PHEROMONE_STRENGTH⟩] := by
  cases hst : w.state with
  | seeking =>
    left
    simp only [updateWorker, hst]
    exact seekTick_field o w foods field obstacles
  | returning =>
    simp only [updateWorker, hst]
    rw [returnTick_field]
    by_cases hcd : w.cooldown ≤ 0
    · right
      rw [drop_pheromone_le hcd]
    · left
      rw [drop_pheromone_pos (by omega)]

theorem updateAnt_field_mono (o : Oracle) (obstacles : List Rect) (u : AntU) (st : SimSt) :
    st.field ⊆ (updateAnt o obstacles u st).2.field := by
  cases u with
  | worker w =>
    show st.field ⊆ (updateWorker o w st.foods st.field obstacles).2.2
    rcases updateWorker_field o w st.foods st.field obstacles with h | h
    · rw [h]
      exact fun x hx => hx
    · rw [h]
      exact List.subset_append_left _ _
  | soldier a => exact fun x hx => hx

theorem runAnts_field_mono (obstacles : List Rect) (l : List (Oracle × AntU)) (st : SimSt) :
    st.field ⊆ (runAnts obstacles l st).2.field := by
  induction l generalizing st with
  | nil => exact fun x hx => hx
  | cons ou rest ih =>
    intro x hx
    exact ih (updateAnt ou.1 obstacles ou.2 st).2 (updateAnt_field_mono ou.1 obstacles ou.2 st hx)

theorem runAnts_append (obstacles : List Rect) (l1 l2 : List (Oracle × AntU)) (st : SimSt) :
    runAnts obstacles (l1 ++ l2) st =
      ((runAnts obstacles l1 st).1 ++ (runAnts obstacles l2 (runAnts obstacles l1 st).2).1,
        (runAnts obstacles l2 (runAnts obstacles l1 st).2).2) := by
  induction l1 generalizing st with
  | nil => rfl
  | cons ou rest ih =>
    simp only [List.cons_append, runAnts, List.append_eq]
    rw [ih]

/-- C9: within one tick ants are updated in population order; an ant update
never removes a marker from the field, so a marker present after the first
ants have updated — in particular one deposited by an earlier-updated
worker — is contained in the field against which every later ant is updated
(conjunct 3 exhibits that the ant after the prefix `l1` is updated against
exactly the state accumulated by `l1`), and the decay pass runs exactly
once, after all ant updates. -/
theorem same_tick_visibility (obstacles : List Rect) (l1 l2 : List (Oracle × AntU))
    (ou : Oracle × AntU) (st : SimSt) (m : Pheromone) :
    (∀ (o : Oracle) (u : AntU) (st2 : SimSt), st2.field ⊆ (updateAnt o obstacles u st2).2.field) ∧
    (m ∈ (runAnts obstacles l1 st).2.field →
      m ∈ (runAnts obstacles (l1 ++ l2) st).2.field) ∧
    runAnts obstacles (l1 ++ ou :: l2) st =
      ((runAnts obstacles l1 st).1 ++
        (updateAnt ou.1 obstacles ou.2 (runAnts obstacles l1 st).2).1 ::
          (runAnts obstacles l2 (updateAnt ou.1 obstacles ou.2 (runAnts obstacles l1 st).2).2).1,
        (runAnts obstacles l2 (updateAnt ou.1 obstacles ou.2 (runAnts obstacles l1 st).2).2).2) ∧
    (∀ (ants : List (Oracle × AntU)) (st0 : SimSt),
      (stepSim obstacles ants st0).2.field = decayTick ((runAnts obstacles ants st0).2.field)) := by
  refine ⟨fun o u st2 => updateAnt_field_mono o obstacles u st2, ?_, ?_, fun ants st0 => rfl⟩
  · intro hm
    rw [runAnts_append]
    exact runAnts_field_mono obstacles l2 (runAnts obstacles l1 st).2 hm
  · rw [runAnts_append]
    rfl

/-- Witness for C9: a marker already in the field before the tick is still
in the field after a soldier (which deposits nothing) has been updated. -/
theorem same_tick_visibility_witness :
    (⟨(0, 0), 255⟩ : Pheromone) ∈
      (runAnts [] ([] ++ [(⟨fun _ _ => 0, fun _ => 0, fun _ => 0, 0, 0⟩,
        AntU.soldier ⟨10, 10, 3 / 2, 0, 5⟩)]) ⟨[], [⟨(0, 0), 255⟩]⟩).2.field :=
  (same_tick_visibility [] [] [(⟨fun _ _ => 0, fun _ => 0, fun _ => 0, 0, 0⟩,
      AntU.soldier ⟨10, 10, 3 / 2, 0, 5⟩)]
    (⟨fun _ _ => 0, fun _ => 0, fun _ => 0, 0, 0⟩, AntU.soldier ⟨10, 10, 3 / 2, 0, 5⟩)
    ⟨[], [⟨(0, 0), 255⟩]⟩ ⟨(0, 0), 255⟩).2.1 (by simp [runAnts])

/-- C3 (amended): `main` performs no configuration validation and never
fails: initialization constructs the simulation for every configuration
value.  A worker-ratio ≥ 1 silently makes every ant a Worker, a ratio ≤ 0
every ant a Soldier, and nonpositive counts silently produce empty
populations (`range` of a nonpositive count is empty). -/
theorem init_performs_no_validation (total : ℤ) (frac : ℚ) (piles : ℤ)
    (rnd : ℕ → SpawnRnd) (posr : ℕ → ℤ × ℤ)
    (hroll : ∀ i, 0 ≤ (rnd i).roll ∧ (rnd i).roll < 1) :
    (mainInit total frac piles rnd posr).ants.length = total.toNat ∧
    (1 ≤ frac → ∀ u ∈ (mainInit total frac piles rnd posr).ants, u.isWorker = true) ∧
    (frac ≤ 0 → ∀ u ∈ (mainInit total frac piles rnd posr).ants, u.isSoldier = true) ∧
    (total ≤ 0 → (mainInit total frac piles rnd posr).ants = []) ∧
    (piles ≤ 0 → (mainInit total frac piles rnd posr).foods = []) := by
  refine ⟨?_, ?_, ?_, ?_, ?_⟩
  · simp [mainInit, initAnts]
  · intro h u hu
    simp only [mainInit, initAnts, List.mem_map] at hu
    obtain ⟨i, _, rfl⟩ := hu
    have hlt : (rnd i).roll < frac := lt_of_lt_of_le (hroll i).2 h
    simp [mkAntMain, if_pos hlt, AntU.isWorker]
  · intro h u hu
    simp only [mainInit, initAnts, List.mem_map] at hu
    obtain ⟨i, _, rfl⟩ := hu
    have hge : ¬((rnd i).roll < frac) := not_lt.mpr (le_trans h (hroll i).1)
    simp [mkAntMain, if_neg hge, AntU.isSoldier]
  · intro h
    simp [mainInit, initAnts, Int.toNat_eq_zero.mpr h]
  · intro h
    simp [mainInit, initFoods, Int.toNat_eq_zero.mpr h]

/-- Witness for C3 (amended): with the out-of-range worker-ratio 2 the
simulation is still constructed, with 2 ants, all Workers. -/
theorem init_performs_no_validation_witness :
    (mainInit 2 2 1 (fun _ => ⟨0, 0, 1 / 2, 0⟩) (fun _ => (100, 100))).ants.length = 2 ∧
    (∀ u ∈ (mainInit 2 2 1 (fun _ => ⟨0, 0, 1 / 2, 0⟩) (fun _ => (100, 100))).ants,
      u.isWorker = true) :=
  ⟨(init_performs_no_validation 2 2 1 _ _ (fun i => by norm_num)).1,
   (init_performs_no_validation 2 2 1 _ _ (fun i => by norm_num)).2.1 (by norm_num)⟩

/-- Counterexample to C3 as stated: the worker-ratio `3/2` lies outside
`[0, 1]` and the food-pile count `-3` is negative, yet initialization does
not fail — it constructs and returns a full simulation (40 ants, every one
a Worker because every `random.random()` draw is `< 3/2`, and an empty food
population because `range(-3)` is empty).  No code path in `main` rejects a
configuration. -/
theorem invalid_config_still_constructs_cex :
    ¬((3 : ℚ) / 2 ≤ 1) ∧ (-3 : ℤ) < 0 ∧
    (mainInit 40 (3 / 2) (-3) (fun _ => ⟨0, 0, 1 / 2, 0⟩) (fun _ => (100, 100))).ants.length = 40 ∧
    (∀ u ∈ (mainInit 40 (3 / 2) (-3) (fun _ => ⟨0, 0, 1 / 2, 0⟩) (fun _ => (100, 100))).ants,
      u.isWorker = true) ∧
    (mainInit 40 (3 / 2) (-3) (fun _ => ⟨0, 0, 1 / 2, 0⟩) (fun _ => (100, 100))).foods = [] := by
  refine ⟨by norm_num, by norm_num, by simp [mainInit, initAnts], ?_, by simp [mainInit, initFoods]⟩
  intro u hu
  simp only [mainInit, initAnts, List.mem_map] at hu
  obtain ⟨i, _, rfl⟩ := hu
  norm_num [mkAntMain, AntU.isWorker]
